import Mathlib

/-!
Shallow embedding of the backtest/scoring core of the pairwise-alpha starter kit.

The embedded code is `StrategyOptimizer.calculate_performance_metrics`,
`StrategyOptimizer.score_performance` and the qualification check of
`StrategyOptimizer.run_optimization` (src/strategy_optimizer.py), and the
signal-emission loop of `generate_signals` (src/strategy.py).

Python floats are modelled as rationals wherever the source performs only
field arithmetic and comparisons; the Sharpe-ratio computation, which takes
square roots, is modelled over the reals.
-/

namespace Optimizer

/-- One signal record of a symbol, as consumed by the per-symbol loop of
`calculate_performance_metrics` (src/strategy_optimizer.py lines 102-117):
the loop reads the `signal`, `position_size` and `price` columns of each row.
The `signal` column is a raw string in the source, so it is a `String` here.
Timestamps are omitted: the simulation input below is already grouped by
symbol and sorted by timestamp, which models
`signals_df['symbol'].unique()` / `sort_values('timestamp')` (lines 86-88). -/
structure TradeRec where
  signal : String
  position_size : ℚ
  price : ℚ
deriving DecidableEq

/-- The per-symbol loop state: `position` and `entry_price`
(src/strategy_optimizer.py lines 90-91), reset to `0, 0` for each symbol. -/
structure PosState where
  position : ℚ
  entry_price : ℚ
deriving DecidableEq

/-- The accumulator shared across all symbols:
`portfolio_value`, `portfolio_history` and `daily_returns`
(src/strategy_optimizer.py lines 81-83). These are initialised once, before
the per-symbol loop, and mutated by every symbol's simulation. -/
structure Global where
  portfolio_value : ℚ
  portfolio_history : List ℚ
  daily_returns : List ℚ
deriving DecidableEq

/-- The initial accumulator: `portfolio_value = 1.0`,
`portfolio_history = [portfolio_value]`, `daily_returns = []`
(src/strategy_optimizer.py lines 81-83). -/
def initGlobal : Global := ⟨1, [1], []⟩

/-- One iteration of the inner loop of `calculate_performance_metrics`
(src/strategy_optimizer.py lines 102-117): a BUY while `position == 0`
opens a position; a SELL while `position > 0` realises the trade return
(guarded by `entry_price > 0`) and resets the position; anything else
(including HOLD and unrecognised signal strings) leaves everything
unchanged. -/
def stepRec (g : Global) (st : PosState) (r : TradeRec) : Global × PosState :=
  if r.signal = "BUY" ∧ st.position = 0 then
    (g, ⟨r.position_size, r.price⟩)
  else if r.signal = "SELL" ∧ 0 < st.position then
    if 0 < st.entry_price then
      let return_pct := (r.price - st.entry_price) / st.entry_price
      let pv := g.portfolio_value * (1 + return_pct * st.position)
      (⟨pv, g.portfolio_history ++ [pv],
        g.daily_returns ++ [return_pct * st.position]⟩, ⟨0, 0⟩)
    else
      (g, ⟨0, 0⟩)
  else
    (g, st)

/-- The inner loop of `calculate_performance_metrics` over one symbol's
sorted records (src/strategy_optimizer.py lines 102-117). -/
def simRecords (g : Global) (st : PosState) : List TradeRec → Global × PosState
  | [] => (g, st)
  | r :: rs => (simRecords (stepRec g st r).1 (stepRec g st r).2 rs)

/-- One symbol's pass of the outer loop (src/strategy_optimizer.py
lines 86-117).  `none` models a symbol whose price cannot be resolved:
no `price` column and no `close_*_1H` column, in which case the source
executes `continue` (line 100) and the symbol is skipped silently.
Otherwise `position` and `entry_price` are reset (lines 90-91) and the
symbol's records are replayed against the shared accumulator. -/
def simSymbol (g : Global) : Option (List TradeRec) → Global
  | none => g
  | some rs => (simRecords g ⟨0, 0⟩ rs).1

/-- The outer loop of `calculate_performance_metrics`
(src/strategy_optimizer.py lines 81-117): every symbol of the signal table,
in order of first appearance, replayed against one shared accumulator. -/
def simulate (table : List (Option (List TradeRec))) : Global :=
  table.foldl simSymbol initGlobal

/-- Python's two-argument `max` on rationals, written as the conditional it
denotes so that concrete runs reduce by `decide`. -/
def maxQ (a b : ℚ) : ℚ := if a ≤ b then b else a

/-- Python's two-argument `min` on rationals. -/
def minQ (a b : ℚ) : ℚ := if a ≤ b then a else b

/-- Python's `abs` on rationals. -/
def absQ (x : ℚ) : ℚ := if x < 0 then -x else x

theorem maxQ_eq_max (a b : ℚ) : maxQ a b = max a b := (max_def a b).symm

theorem minQ_eq_min (a b : ℚ) : minQ a b = min a b := (min_def a b).symm

theorem absQ_eq_abs (x : ℚ) : absQ x = |x| := by
  unfold absQ
  rcases lt_or_le x 0 with h | h
  · rw [if_pos h, abs_of_neg h]
  · rw [if_neg (not_lt.mpr h), abs_of_nonneg h]

/-- `np.mean` of a list of values (population mean). On the empty list this
is `0/0 = 0` in rational arithmetic; the source only evaluates it on
nonempty lists. -/
def mean (l : List ℚ) : ℚ := l.sum / l.length

/-- The variance under `np.std(l)` (population variance, `ddof = 0`):
mean of the squared deviations from the mean. -/
def popVar (l : List ℚ) : ℚ := ((l.map (fun x => (x - mean l) ^ 2)).sum) / l.length

/-- `np.std(l)`: population standard deviation, the square root of
`popVar`. -/
noncomputable def popStd (l : List ℚ) : ℝ := Real.sqrt (popVar l)

/-- The Sharpe-ratio block of `calculate_performance_metrics`
(src/strategy_optimizer.py lines 124-128): `mean / std * sqrt(252)` when
`np.std(daily_returns) > 0`, else `0`. Only evaluated by the source inside
the `len(daily_returns) > 0` branch. -/
noncomputable def sharpe_ratio_calc (l : List ℚ) : ℝ :=
  if 0 < popStd l then ((mean l : ℝ) / popStd l) * Real.sqrt 252 else 0

/-- `np.maximum.accumulate` continued from a running maximum `m`. -/
def accMax (m : ℚ) : List ℚ → List ℚ
  | [] => []
  | x :: xs => maxQ m x :: accMax (maxQ m x) xs

/-- `np.maximum.accumulate` (src/strategy_optimizer.py line 132): running
maximum of the portfolio history. -/
def runMax : List ℚ → List ℚ
  | [] => []
  | x :: xs => x :: accMax x xs

/-- `(portfolio_history - peak) / peak` (src/strategy_optimizer.py
line 133), elementwise against the running maximum. -/
def drawdowns (h : List ℚ) : List ℚ :=
  (h.zip (runMax h)).map (fun p => (p.1 - p.2) / p.2)

/-- `np.min` of a list; the source only evaluates it on the portfolio
history, which always contains at least the initial `1.0`. -/
def listMin : List ℚ → ℚ
  | [] => 0
  | x :: xs => xs.foldl minQ x

/-- The max-drawdown block of `calculate_performance_metrics`
(src/strategy_optimizer.py lines 131-134 and 139):
`abs(np.min(drawdown) * 100)`. -/
def max_drawdown_calc (h : List ℚ) : ℚ := absQ (listMin (drawdowns h) * 100)

/-- The metrics record returned by `calculate_performance_metrics`
(src/strategy_optimizer.py lines 136-150): `total_return`, `sharpe_ratio`,
`max_drawdown`, `num_trades`, `win_rate`. -/
structure Metrics where
  total_return : ℚ
  sharpe_ratio : ℝ
  max_drawdown : ℚ
  num_trades : ℕ
  win_rate : ℚ

/-- The all-zero metrics record returned when there are no realised trades
(src/strategy_optimizer.py lines 143-150). -/
def zeroMetrics : Metrics := ⟨0, 0, 0, 0, 0⟩

/-- The tail of `calculate_performance_metrics`
(src/strategy_optimizer.py lines 119-152): if any returns were realised,
compute the five metrics from the shared accumulator, otherwise return the
all-zero record. -/
noncomputable def metricsOf (g : Global) : Metrics :=
  if 0 < g.daily_returns.length then
    { total_return := (g.portfolio_value - 1) * 100
      sharpe_ratio := sharpe_ratio_calc g.daily_returns
      max_drawdown := max_drawdown_calc g.portfolio_history
      num_trades := g.daily_returns.length
      win_rate := ((g.daily_returns.filter (fun x => 0 < x)).length : ℚ) /
        g.daily_returns.length }
  else zeroMetrics

/-- The scores record built by `score_performance`
(src/strategy_optimizer.py lines 154-176). The sharpe component (and hence
the total) involves the real-valued Sharpe ratio; the other components are
rational. -/
structure Scores where
  profitability : ℚ
  sharpe : ℝ
  drawdown : ℚ
  total : ℝ

/-- `score_performance` (src/strategy_optimizer.py lines 154-176):
`profitability = min(45, max(0, total_return * 2.25))`,
`sharpe = min(35, max(0, sharpe_ratio * 17.5))`,
`drawdown = max(0, 20 - max_drawdown)` (note: no upper bound applied),
`total` = their sum. -/
noncomputable def score_performance (m : Metrics) : Scores :=
  let profit_score : ℚ := minQ 45 (maxQ 0 (m.total_return * (9 / 4)))
  let sharpe_score : ℝ := min 35 (max 0 (m.sharpe_ratio * (35 / 2)))
  let drawdown_score : ℚ := maxQ 0 (20 - m.max_drawdown)
  ⟨profit_score, sharpe_score, drawdown_score,
    (profit_score : ℝ) + sharpe_score + (drawdown_score : ℝ)⟩

/-- The qualification check of `run_optimization`
(src/strategy_optimizer.py lines 297-302): all four thresholds must hold. -/
def qualifies (s : Scores) : Prop :=
  s.profitability ≥ 9 ∧ s.sharpe ≥ 10 ∧ s.drawdown ≥ 5 ∧ s.total ≥ 50

/-- Spec-side definition, following the spec's words: `clamp(x, lo, hi)`. -/
def clamp (x lo hi : ℚ) : ℚ := min hi (max lo x)

/-- Spec-side definition over the reals: `clamp(x, lo, hi)`. -/
noncomputable def clampR (x lo hi : ℝ) : ℝ := min hi (max lo x)

/-- Spec-side definition: the mean of the realised returns, as a real. -/
noncomputable def meanSpec (l : List ℚ) : ℝ :=
  (l.map (fun x : ℚ => (x : ℝ))).sum / l.length

/-- Spec-side definition, following the spec's words: the population
standard deviation of the realised returns. -/
noncomputable def popStdSpec (l : List ℚ) : ℝ :=
  Real.sqrt ((l.map (fun x : ℚ => ((x : ℝ) - meanSpec l) ^ 2)).sum / l.length)

/-- Spec-side definition, following the spec's words:
`sharpe_ratio = mean(realized_returns) / population_stddev(realized_returns)
× sqrt(252), defined as 0 when stddev is 0 or there are zero trades`. -/
noncomputable def sharpeSpec (l : List ℚ) : ℝ :=
  if l = [] ∨ popStdSpec l = 0 then 0
  else meanSpec l / popStdSpec l * Real.sqrt 252

theorem mean_cast (l : List ℚ) : ((mean l : ℚ) : ℝ) = meanSpec l := by
  unfold mean meanSpec
  rw [Rat.cast_div, Rat.cast_list_sum]
  norm_cast

theorem popVar_cast (l : List ℚ) :
    ((popVar l : ℚ) : ℝ) = (l.map (fun x : ℚ => ((x : ℝ) - meanSpec l) ^ 2)).sum / l.length := by
  unfold popVar
  rw [Rat.cast_div, Rat.cast_list_sum, List.map_map]
  congr 1
  apply congrArg
  apply List.map_congr_left
  intro x _
  simp only [Function.comp_apply]
  push_cast
  rw [mean_cast]

theorem popStd_eq_spec (l : List ℚ) : popStd l = popStdSpec l := by
  unfold popStd popStdSpec
  rw [popVar_cast]

/-- C3: the metrics calculator's Sharpe ratio equals
mean(realized_returns) / population_stddev(realized_returns) × sqrt(252),
and it is 0 whenever the standard deviation is 0 or there are zero
trades. -/
theorem sharpe_ratio_matches_spec (g : Global) :
    (metricsOf g).sharpe_ratio = sharpeSpec g.daily_returns := by
  unfold metricsOf
  by_cases hl : 0 < g.daily_returns.length
  · rw [if_pos hl]
    show sharpe_ratio_calc g.daily_returns = _
    have hne : g.daily_returns ≠ [] := by
      intro h
      rw [h] at hl
      exact absurd hl (by simp)
    have hstd := popStd_eq_spec g.daily_returns
    unfold sharpe_ratio_calc sharpeSpec
    by_cases hs : popStdSpec g.daily_returns = 0
    · rw [if_pos (Or.inr hs), if_neg]
      rw [hstd, hs]
      exact lt_irrefl 0
    · have hpos : 0 < popStd g.daily_returns :=
        lt_of_le_of_ne (Real.sqrt_nonneg _) (fun h => hs (hstd ▸ h.symm))
      rw [if_pos hpos, if_neg (by tauto), mean_cast, hstd]
  · rw [if_neg hl]
    show (0 : ℝ) = _
    have hnil : g.daily_returns = [] :=
      List.length_eq_zero.mp (Nat.eq_zero_of_not_pos hl)
    rw [hnil]
    simp [sharpeSpec]

/-- C1: the qualification verdict equals the conjunction of the four
threshold comparisons (profitability ≥ 9, sharpe ≥ 10, drawdown ≥ 5,
total ≥ 50), and any single failing threshold makes the verdict false
regardless of the value of total. -/
theorem qualifies_iff_thresholds (m : Metrics) :
    (qualifies (score_performance m) ↔
      ((score_performance m).profitability ≥ 9 ∧
       (score_performance m).sharpe ≥ 10 ∧
       (score_performance m).drawdown ≥ 5 ∧
       (score_performance m).total ≥ 50)) ∧
    ((¬ (score_performance m).profitability ≥ 9 ∨
      ¬ (score_performance m).sharpe ≥ 10 ∨
      ¬ (score_performance m).drawdown ≥ 5 ∨
      ¬ (score_performance m).total ≥ 50) →
      ¬ qualifies (score_performance m)) := by
  refine ⟨Iff.rfl, ?_⟩
  rintro (h | h | h | h) ⟨h1, h2, h3, h4⟩
  · exact h h1
  · exact h h2
  · exact h h3
  · exact h h4

/-- Witness for C1 at a concrete metrics record: a drawdown of 50 % scores
0 drawdown points, so the strategy does not qualify whatever the other
scores are. -/
theorem qualifies_iff_thresholds_w :
    ¬ qualifies (score_performance ⟨100, 100, 50, 1, 0⟩) :=
  (qualifies_iff_thresholds ⟨100, 100, 50, 1, 0⟩).2
    (Or.inr (Or.inr (Or.inl (by norm_num [score_performance, maxQ, minQ]))))

/-- C2 counterexample: on a metrics record with `max_drawdown_pct = -5` the
scorer returns a drawdown score of 25, not `clamp(20 - (-5), 0, 20) = 20`:
`score_performance` applies no upper clamp to the drawdown score, so the
claimed formula (and with it `total ≤ 100`) fails on this record. -/
theorem score_drawdown_not_clamped :
    (score_performance ⟨0, 0, -5, 0, 0⟩).drawdown ≠ clamp (20 - (-5)) 0 20 := by
  norm_num [score_performance, clamp, maxQ, minQ]

/-- C2 amended: for every metrics record whose max_drawdown_pct is
nonnegative (as every record produced by the metrics calculator is, since
it stores an absolute value), the scorer computes
profitability = clamp(total_return_pct × 2.25, 0, 45),
sharpe = clamp(sharpe_ratio × 17.5, 0, 35),
drawdown = clamp(20 − max_drawdown_pct, 0, 20) (the code's
`max(0, 20 - dd)` agrees with the clamp exactly when dd ≥ 0), and
total = profitability + sharpe + drawdown, so total lies in [0, 100]. -/
theorem score_performance_formulas (m : Metrics) (h : 0 ≤ m.max_drawdown) :
    (score_performance m).profitability = clamp (m.total_return * (9 / 4)) 0 45 ∧
    (score_performance m).sharpe = clampR (m.sharpe_ratio * (35 / 2)) 0 35 ∧
    (score_performance m).drawdown = clamp (20 - m.max_drawdown) 0 20 ∧
    (score_performance m).total = ((score_performance m).profitability : ℝ) +
      (score_performance m).sharpe + ((score_performance m).drawdown : ℝ) ∧
    0 ≤ (score_performance m).total ∧ (score_performance m).total ≤ 100 := by
  have hp : (score_performance m).profitability = clamp (m.total_return * (9 / 4)) 0 45 := by
    show minQ 45 (maxQ 0 (m.total_return * (9 / 4))) = _
    rw [minQ_eq_min, maxQ_eq_max, clamp]
  have hs : (score_performance m).sharpe = clampR (m.sharpe_ratio * (35 / 2)) 0 35 := rfl
  have hd : (score_performance m).drawdown = clamp (20 - m.max_drawdown) 0 20 := by
    show maxQ 0 (20 - m.max_drawdown) = _
    rw [maxQ_eq_max, clamp]
    exact (min_eq_right (max_le (by norm_num) (by linarith))).symm
  have ht : (score_performance m).total = ((score_performance m).profitability : ℝ) +
      (score_performance m).sharpe + ((score_performance m).drawdown : ℝ) := rfl
  refine ⟨hp, hs, hd, ht, ?_, ?_⟩
  · rw [ht]
    have h1 : (0 : ℚ) ≤ (score_performance m).profitability := by
      rw [hp, clamp]
      exact le_min (by norm_num) (le_max_left 0 _)
    have h2 : (0 : ℝ) ≤ (score_performance m).sharpe := by
      rw [hs, clampR]
      exact le_min (by norm_num) (le_max_left 0 _)
    have h3 : (0 : ℚ) ≤ (score_performance m).drawdown := by
      rw [hd, clamp]
      exact le_min (by norm_num) (le_max_left 0 _)
    have h1' : (0 : ℝ) ≤ ((score_performance m).profitability : ℝ) := by exact_mod_cast h1
    have h3' : (0 : ℝ) ≤ ((score_performance m).drawdown : ℝ) := by exact_mod_cast h3
    linarith
  · rw [ht]
    have h1 : (score_performance m).profitability ≤ 45 := by
      rw [hp, clamp]
      exact min_le_left _ _
    have h2 : (score_performance m).sharpe ≤ 35 := by
      rw [hs, clampR]
      exact min_le_left _ _
    have h3 : (score_performance m).drawdown ≤ 20 := by
      rw [hd, clamp]
      exact min_le_left _ _
    have h1' : ((score_performance m).profitability : ℝ) ≤ 45 := by exact_mod_cast h1
    have h3' : ((score_performance m).drawdown : ℝ) ≤ 20 := by exact_mod_cast h3
    linarith

/-- Witness for C2's amended statement at the concrete metrics record
(total_return 2, sharpe 0, drawdown 3): its hypothesis 0 ≤ 3 holds and the
clamp formulas and total bounds follow. -/
theorem score_performance_formulas_w :
    (0 : ℚ) ≤ (Metrics.mk 2 0 3 1 1).max_drawdown ∧
    ((score_performance ⟨2, 0, 3, 1, 1⟩).profitability =
      clamp ((2 : ℚ) * (9 / 4)) 0 45 ∧
     (score_performance ⟨2, 0, 3, 1, 1⟩).sharpe = clampR ((0 : ℝ) * (35 / 2)) 0 35 ∧
     (score_performance ⟨2, 0, 3, 1, 1⟩).drawdown = clamp ((20 : ℚ) - 3) 0 20 ∧
     (score_performance ⟨2, 0, 3, 1, 1⟩).total =
       ((score_performance ⟨2, 0, 3, 1, 1⟩).profitability : ℝ) +
       (score_performance ⟨2, 0, 3, 1, 1⟩).sharpe +
       ((score_performance ⟨2, 0, 3, 1, 1⟩).drawdown : ℝ) ∧
     0 ≤ (score_performance ⟨2, 0, 3, 1, 1⟩).total ∧
     (score_performance ⟨2, 0, 3, 1, 1⟩).total ≤ 100) :=
  ⟨by norm_num, score_performance_formulas ⟨2, 0, 3, 1, 1⟩ (by norm_num)⟩

theorem stepRec_of_other (g : Global) (st : PosState) (r : TradeRec)
    (hb : r.signal ≠ "BUY") (hs : r.signal ≠ "SELL") :
    stepRec g st r = (g, st) := by
  unfold stepRec
  rw [if_neg (fun h => hb h.1), if_neg (fun h => hs h.1)]

theorem stepRec_buy_fst (g : Global) (st : PosState) (r : TradeRec)
    (hb : r.signal = "BUY") : (stepRec g st r).1 = g := by
  by_cases hp : st.position = 0 <;> simp [stepRec, hb, hp]

theorem simRecords_append (g : Global) (st : PosState) (rs rs' : List TradeRec) :
    simRecords g st (rs ++ rs') =
      simRecords (simRecords g st rs).1 (simRecords g st rs).2 rs' := by
  induction rs generalizing g st with
  | nil => rfl
  | cons r rs ih =>
    show simRecords (stepRec g st r).1 (stepRec g st r).2 (rs ++ rs') = _
    rw [ih]
    rfl

/-- C7: a SELL while flat is a no-op (nothing appended, accumulator
unchanged), a BUY while a position is open is ignored (so at most one
position per symbol is open at a time), a BUY never appends a realised
return or changes the portfolio value, and a trailing BUY left unclosed at
the end of a record sequence contributes zero realised trades. -/
theorem stepRec_state_machine (g : Global) (st : PosState) (r : TradeRec) :
    (r.signal = "SELL" → st.position = 0 → stepRec g st r = (g, st)) ∧
    (r.signal = "BUY" → 0 < st.position → stepRec g st r = (g, st)) ∧
    (r.signal = "BUY" → (stepRec g st r).1 = g) ∧
    (r.signal = "BUY" → ∀ rs : List TradeRec,
      (simRecords g st (rs ++ [r])).1.daily_returns =
        (simRecords g st rs).1.daily_returns) := by
  refine ⟨?_, ?_, ?_, ?_⟩
  · intro hs hp
    simp [stepRec, hs, hp]
  · intro hb hp
    simp [stepRec, hb, hp.ne']
  · intro hb
    exact stepRec_buy_fst g st r hb
  · intro hb rs
    rw [simRecords_append]
    show (stepRec _ _ r).1.daily_returns = _
    rw [stepRec_buy_fst _ _ r hb]

/-- Witness for C7: a SELL from the flat state, a BUY while long, and a BUY
from flat, at concrete inputs. -/
theorem stepRec_state_machine_w :
    stepRec initGlobal ⟨0, 0⟩ ⟨"SELL", 0, 100⟩ = (initGlobal, ⟨0, 0⟩) ∧
    stepRec initGlobal ⟨1, 100⟩ ⟨"BUY", 1, 100⟩ = (initGlobal, ⟨1, 100⟩) ∧
    (stepRec initGlobal ⟨0, 0⟩ ⟨"BUY", 1, 100⟩).1 = initGlobal ∧
    (simRecords initGlobal ⟨0, 0⟩ ([] ++ [⟨"BUY", 1, 100⟩])).1.daily_returns =
      (simRecords initGlobal ⟨0, 0⟩ []).1.daily_returns :=
  ⟨(stepRec_state_machine initGlobal ⟨0, 0⟩ ⟨"SELL", 0, 100⟩).1 rfl rfl,
   (stepRec_state_machine initGlobal ⟨1, 100⟩ ⟨"BUY", 1, 100⟩).2.1 rfl (by norm_num),
   (stepRec_state_machine initGlobal ⟨0, 0⟩ ⟨"BUY", 1, 100⟩).2.2.1 rfl,
   (stepRec_state_machine initGlobal ⟨0, 0⟩ ⟨"BUY", 1, 100⟩).2.2.2 rfl []⟩

/-- C9: the trade-return division happens only under the guard
`entry_price > 0`; a SELL with an open position whose entry price is ≤ 0
appends no realised return, changes nothing in the accumulator, and still
resets the position to flat. -/
theorem stepRec_sell_nonpos_entry (g : Global) (st : PosState) (r : TradeRec)
    (hs : r.signal = "SELL") (hp : 0 < st.position) (he : st.entry_price ≤ 0) :
    stepRec g st r = (g, ⟨0, 0⟩) := by
  simp [stepRec, hs, hp, not_lt.mpr he]

/-- Witness for C9: the state reached by a BUY of size 1/2 at price 0 is
`⟨1/2, 0⟩`; a SELL from it realises nothing and resets to flat. -/
theorem stepRec_sell_nonpos_entry_w :
    stepRec initGlobal ⟨1 / 2, 0⟩ ⟨"SELL", 0, 100⟩ = (initGlobal, ⟨0, 0⟩) :=
  stepRec_sell_nonpos_entry initGlobal ⟨1 / 2, 0⟩ ⟨"SELL", 0, 100⟩ rfl
    (by norm_num) (by norm_num)

/-- C6 counterexample: a signal table that violates the claimed schema
(signal "FOO" outside the enum, position_size 2 outside [0, 1]) is not
rejected — there is no validation step and no SchemaError in the code —
and simulation proceeds, even scaling the trade return by the out-of-range
size 2. -/
theorem invalid_table_simulates :
    simulate [some [⟨"FOO", 1 / 2, 100⟩, ⟨"BUY", 2, 100⟩, ⟨"SELL", 0, 110⟩]] =
      ⟨6 / 5, [1, 6 / 5], [1 / 5]⟩ := by
  simp [simulate, simSymbol, simRecords, stepRec, initGlobal]
  norm_num

/-- C6 amended: the code performs no schema validation and raises no
SchemaError: a record whose signal is not BUY and not SELL is processed
exactly like a HOLD record, as a no-op, and out-of-range position sizes
are used unchanged. -/
theorem stepRec_unknown_signal_is_hold (g : Global) (st : PosState) (r : TradeRec)
    (hb : r.signal ≠ "BUY") (hs : r.signal ≠ "SELL") :
    stepRec g st r = stepRec g st ⟨"HOLD", r.position_size, r.price⟩ ∧
    stepRec g st r = (g, st) := by
  have h1 := stepRec_of_other g st r hb hs
  have h2 := stepRec_of_other g st ⟨"HOLD", r.position_size, r.price⟩
    (by simp) (by simp)
  exact ⟨h1.trans h2.symm, h1⟩

/-- Witness for C6's amended statement: a record with signal "FOO" and
position_size 2 is processed like HOLD. -/
theorem stepRec_unknown_signal_is_hold_w :
    stepRec initGlobal ⟨0, 0⟩ ⟨"FOO", 2, 100⟩ =
      stepRec initGlobal ⟨0, 0⟩ ⟨"HOLD", 2, 100⟩ ∧
    stepRec initGlobal ⟨0, 0⟩ ⟨"FOO", 2, 100⟩ = (initGlobal, ⟨0, 0⟩) :=
  stepRec_unknown_signal_is_hold initGlobal ⟨0, 0⟩ ⟨"FOO", 2, 100⟩
    (by decide) (by decide)

/-- C5 counterexample: a symbol whose price cannot be resolved is silently
skipped — the simulation result is identical to the one where the symbol
is absent, and no PriceResolutionError is raised (none exists in the
code). -/
theorem unresolvable_symbol_dropped :
    simulate [none, some [⟨"BUY", 1, 100⟩, ⟨"SELL", 0, 110⟩]] =
      simulate [some [⟨"BUY", 1, 100⟩, ⟨"SELL", 0, 110⟩]] ∧
    simulate [none, some [⟨"BUY", 1, 100⟩, ⟨"SELL", 0, 110⟩]] =
      ⟨11 / 10, [1, 11 / 10], [1 / 10]⟩ := by
  constructor
  · rfl
  · simp [simulate, simSymbol, simRecords, stepRec, initGlobal]
    norm_num

/-- C5 amended: when a symbol's price cannot be resolved the simulator
silently skips all of that symbol's records (`continue`), producing exactly
the result of the table without that symbol; it raises no error. -/
theorem simulate_skips_unresolvable (l1 l2 : List (Option (List TradeRec))) :
    simulate (l1 ++ none :: l2) = simulate (l1 ++ l2) := by
  unfold simulate
  rw [List.foldl_append, List.foldl_append, List.foldl_cons]
  rfl

theorem stepRec_snd_indep (g g' : Global) (st : PosState) (r : TradeRec) :
    (stepRec g st r).2 = (stepRec g' st r).2 := by
  unfold stepRec
  split_ifs <;> rfl

theorem stepRec_returns_append (g : Global) (st : PosState) (r : TradeRec) :
    (stepRec g st r).1.daily_returns =
      g.daily_returns ++ (stepRec initGlobal st r).1.daily_returns := by
  unfold stepRec initGlobal
  split_ifs <;> simp

theorem simRecords_returns (rs : List TradeRec) :
    ∀ (g : Global) (st : PosState),
      (simRecords g st rs).1.daily_returns =
        g.daily_returns ++ (simRecords initGlobal st rs).1.daily_returns := by
  induction rs with
  | nil =>
    intro g st
    simp [simRecords, initGlobal]
  | cons r rs ih =>
    intro g st
    show (simRecords (stepRec g st r).1 (stepRec g st r).2 rs).1.daily_returns =
      g.daily_returns ++
        (simRecords (stepRec initGlobal st r).1 (stepRec initGlobal st r).2 rs).1.daily_returns
    rw [ih (stepRec g st r).1 (stepRec g st r).2,
      ih (stepRec initGlobal st r).1 (stepRec initGlobal st r).2,
      stepRec_returns_append g st r,
      stepRec_snd_indep g initGlobal st r,
      List.append_assoc]

/-- The realised returns contributed by one symbol when it is simulated in
isolation, starting from the initial accumulator. -/
def symReturns (o : Option (List TradeRec)) : List ℚ :=
  (simSymbol initGlobal o).daily_returns

theorem simSymbol_returns (g : Global) (o : Option (List TradeRec)) :
    (simSymbol g o).daily_returns = g.daily_returns ++ symReturns o := by
  cases o with
  | none => simp [simSymbol, symReturns, initGlobal]
  | some rs =>
    show (simRecords g ⟨0, 0⟩ rs).1.daily_returns = _
    rw [simRecords_returns rs g ⟨0, 0⟩]
    rfl

theorem foldl_simSymbol_returns (table : List (Option (List TradeRec))) :
    ∀ g : Global,
      (table.foldl simSymbol g).daily_returns =
        g.daily_returns ++ (table.map symReturns).flatten := by
  induction table with
  | nil =>
    intro g
    simp
  | cons o t ih =>
    intro g
    show (t.foldl simSymbol (simSymbol g o)).daily_returns = _
    rw [ih (simSymbol g o), simSymbol_returns g o, List.map_cons, List.flatten_cons,
      List.append_assoc]

/-- C4 amended: per-symbol position state is independent and each symbol's
realised-returns contribution equals its simulation in isolation,
concatenated in symbol processing order; however the portfolio value and
portfolio history are shared across symbols, so the Metrics derived from
the history (max_drawdown_pct) can depend on the order in which symbols
are processed. -/
theorem simulate_returns_join (table : List (Option (List TradeRec))) :
    (simulate table).daily_returns = (table.map symReturns).flatten := by
  unfold simulate
  rw [foldl_simSymbol_returns table initGlobal]
  rfl

/-- C4 counterexample: two symbols whose realised returns are [-1/5] and
[1/2, -1/5]; processing them in the two possible orders yields
max_drawdown_pct 20 versus 36, so the Metrics depend on the symbol
processing order. -/
theorem metrics_depend_on_symbol_order :
    (metricsOf (simulate [some [⟨"BUY", 1, 100⟩, ⟨"SELL", 0, 80⟩],
        some [⟨"BUY", 1, 100⟩, ⟨"SELL", 0, 150⟩, ⟨"BUY", 1, 150⟩,
          ⟨"SELL", 0, 120⟩]])).max_drawdown ≠
    (metricsOf (simulate [some [⟨"BUY", 1, 100⟩, ⟨"SELL", 0, 150⟩,
        ⟨"BUY", 1, 150⟩, ⟨"SELL", 0, 120⟩],
        some [⟨"BUY", 1, 100⟩, ⟨"SELL", 0, 80⟩]])).max_drawdown := by
  simp [simulate, simSymbol, simRecords, stepRec, initGlobal, metricsOf]
  norm_num [max_drawdown_calc, drawdowns, runMax, accMax, listMin, absQ, minQ, maxQ]

theorem simRecords_hold (rs : List TradeRec) (hall : ∀ r ∈ rs, r.signal = "HOLD") :
    ∀ (g : Global) (st : PosState), simRecords g st rs = (g, st) := by
  induction rs with
  | nil =>
    intro g st
    rfl
  | cons r rs ih =>
    intro g st
    have hr := hall r (List.mem_cons_self r rs)
    have hstep : stepRec g st r = (g, st) :=
      stepRec_of_other g st r (by rw [hr]; decide) (by rw [hr]; decide)
    show simRecords (stepRec g st r).1 (stepRec g st r).2 rs = (g, st)
    rw [hstep]
    exact ih (fun x hx => hall x (List.mem_cons_of_mem r hx)) g st

/-- C8: whenever the realised-returns sequence is empty the metrics
calculator returns the record with all five fields equal to 0 and the
qualification verdict is false; and an all-HOLD signal table realises no
returns at all. -/
theorem no_trades_zero_metrics :
    (∀ g : Global, g.daily_returns = [] →
      metricsOf g = zeroMetrics ∧
      ¬ qualifies (score_performance (metricsOf g))) ∧
    (∀ table : List (Option (List TradeRec)),
      (∀ o ∈ table, ∀ r ∈ o.getD [], r.signal = "HOLD") →
      (simulate table).daily_returns = []) := by
  constructor
  · intro g h
    have hm : metricsOf g = zeroMetrics := by
      simp [metricsOf, h]
    refine ⟨hm, ?_⟩
    rw [hm]
    rintro ⟨h1, h2, h3, h4⟩
    norm_num [score_performance, zeroMetrics, maxQ, minQ] at h1
  · intro table hall
    unfold simulate
    rw [foldl_simSymbol_returns table initGlobal]
    show [] ++ (table.map symReturns).flatten = []
    rw [List.nil_append, List.flatten_eq_nil_iff]
    intro l hl
    rcases List.mem_map.mp hl with ⟨o, ho, rfl⟩
    cases o with
    | none => rfl
    | some rs =>
      show (simSymbol initGlobal (some rs)).daily_returns = []
      have : simRecords initGlobal ⟨0, 0⟩ rs = (initGlobal, ⟨0, 0⟩) :=
        simRecords_hold rs (fun r hr => hall (some rs) ho r hr) initGlobal ⟨0, 0⟩
      show (simRecords initGlobal ⟨0, 0⟩ rs).1.daily_returns = []
      rw [this]
      rfl

/-- Witness for C8: the empty-returns accumulator yields the all-zero
metrics, and the concrete one-record all-HOLD table realises nothing. -/
theorem no_trades_zero_metrics_w :
    metricsOf ⟨1, [1], []⟩ = zeroMetrics ∧
    (simulate [some [⟨"HOLD", 0, 100⟩], none]).daily_returns = [] :=
  ⟨(no_trades_zero_metrics.1 ⟨1, [1], []⟩ rfl).1,
   no_trades_zero_metrics.2 [some [⟨"HOLD", 0, 100⟩], none] (by
     intro o ho r hr
     rcases List.mem_cons.mp ho with h | h
     · subst h
       rcases List.mem_singleton.mp hr with rfl
       rfl
     · rcases List.mem_singleton.mp h with rfl
       cases hr)⟩

end Optimizer

namespace Strategy

/-- The target symbols of `get_coin_metadata` (src/strategy.py lines 6-10),
the only symbols the signal loop can emit. -/
inductive TSym
  | DOGE
  | AVAX
  | ADA
deriving DecidableEq

/-- `target_symbols` (src/strategy.py lines 92-93). -/
def target_symbols : List TSym := [TSym.DOGE, TSym.AVAX, TSym.ADA]

/-- One row of the merged feature dataframe as read by the signal loop of
`generate_signals` (src/strategy.py lines 132-275). A per-symbol feature is
`none` when the column is absent or the value is NaN (the source always
tests `col in row and not pd.isna(row[col])` before reading), `some v`
otherwise. `anchor_score` and `strong_trend` are read with
`row.get(..., 0)` (lines 199-200); timestamps are naturals standing for
the ordered pandas timestamps. -/
structure SRow where
  timestamp : ℕ
  anchor_score : ℚ
  strong_trend : ℚ
  price : TSym → Option ℚ
  zscore : TSym → Option ℚ
  hr_vol : TSym → Option ℚ
  rsi_smooth : TSym → Option ℚ
  momentum_4h : TSym → Option ℚ
  momentum_8h : TSym → Option ℚ
  macd_hist : TSym → Option ℚ
  bb_position : TSym → Option ℚ
  price_vs_sma20 : TSym → Option ℚ
  price_vs_sma50 : TSym → Option ℚ

/-- One emitted signal record: the dicts appended to `signals`
(src/strategy.py lines 184-189 and 264-269). -/
structure SigRec where
  timestamp : ℕ
  symbol : TSym
  signal : String
  position_size : ℚ
deriving DecidableEq

/-- The loop state of `generate_signals` (src/strategy.py lines 108-116):
`signals`, `in_position`, `held_symbol`, `entry_price`, `entry_index`,
`peak_price`, `trailing_stop`, `last_trade_index`. -/
structure GenState where
  signals : List SigRec
  in_position : Bool
  held_symbol : Option TSym
  entry_price : ℚ
  entry_index : ℕ
  peak_price : ℚ
  trailing_stop : Option ℚ
  last_trade_index : ℕ

/-- The initial loop state (src/strategy.py lines 108-116). -/
def initGenState : GenState := ⟨[], false, none, 0, 0, 0, none, 0⟩

/-- `col in row and not isna and row[col] > c`, the guarded strict
comparison used all over the signal loop. -/
def optGt (o : Option ℚ) (c : ℚ) : Bool :=
  match o with
  | some v => decide (c < v)
  | none => false

/-- `col in row and not isna and row[col] < c`. -/
def optLt (o : Option ℚ) (c : ℚ) : Bool :=
  match o with
  | some v => decide (v < c)
  | none => false

/-- The candidate filter of the entry branch (src/strategy.py
lines 203-258): the five required features must be present, the
`high_quality_setup` conjunction must hold, and then the weighted
`quality_score` is computed. The stored `zscore`/`rsi` fields of the
Python dict are never read afterwards, so only `symbol` and `score` are
kept. -/
def candidateFor (row : SRow) (sym : TSym) : Option (TSym × ℚ) :=
  match row.price sym, row.zscore sym, row.hr_vol sym, row.rsi_smooth sym,
      row.momentum_4h sym with
  | some p, some z, some hv, some r, some m4 =>
    let uptrend_confirmed := optGt (row.price_vs_sma20 sym) (3 / 1000) &&
      optGt (row.price_vs_sma50 sym) (5 / 1000)
    let momentum_positive := decide ((1 : ℚ) / 1000 < m4)
    let momentum_8h_ok :=
      match row.momentum_8h sym with
      | none => true
      | some v => decide (-(8 : ℚ) / 1000 < v)
    let macd_positive := optGt (row.macd_hist sym) (-(5 : ℚ) / 100000)
    let bb_reasonable :=
      match row.bb_position sym with
      | none => false
      | some v => decide (-(3 : ℚ) / 10 < v) && decide (v < (12 : ℚ) / 10)
    let rsi_in_range := decide ((30 : ℚ) < r) && decide (r < (75 : ℚ))
    let high_quality_setup := decide ((1 : ℚ) / 4 < z) &&
      decide (hv < (3 : ℚ) / 100) && decide ((0 : ℚ) < p) &&
      uptrend_confirmed && momentum_positive && momentum_8h_ok &&
      macd_positive && bb_reasonable && rsi_in_range
    if high_quality_setup then
      some (sym, z * (3 / 10) + (75 - Optimizer.absQ (r - 52)) / 75 * (25 / 100) +
        m4 * 60 * (2 / 10) + ((3 / 100) - hv) / (3 / 100) * (15 / 100) +
        (match row.price_vs_sma20 sym with
         | some v => v
         | none => 0) * 15 * (1 / 10))
    else none
  | _, _, _, _, _ => none

/-- `max(candidates, key=lambda x: x["score"])` (src/strategy.py
line 261): the first candidate of maximal score, replaced only on a
strictly greater score, exactly as Python's `max` behaves. -/
def bestCandidate (cs : List (TSym × ℚ)) : Option (TSym × ℚ) :=
  cs.foldl (fun acc c =>
    match acc with
    | none => some c
    | some b => if b.2 < c.2 then some c else some b) none

/-- The in-position branch of the signal loop (src/strategy.py
lines 136-194) for the held symbol `sym`: if the price feature is missing
the row is skipped (`continue`, line 144); otherwise the peak and trailing
stop are updated, the ten exit conditions are evaluated, and on exit a
SELL record with position_size 0.0 is appended and the state reset
(`entry_price` and `entry_index` are left stale, as in the source).
`trailing_stop and p <= trailing_stop` is Python truthiness: a stop of
exactly 0.0 is falsy, hence the `t ≠ 0` conjunct. -/
def exitStep (s : GenState) (i : ℕ) (row : SRow) (sym : TSym) : GenState :=
  match row.price sym with
  | none => s
  | some p =>
    let profit := (p - s.entry_price) / s.entry_price
    let age := i - s.entry_index
    let peak' := if s.peak_price < p then p else s.peak_price
    let trailing' :=
      if decide ((5 : ℚ) / 1000 < profit) &&
          (match s.trailing_stop with
           | none => true
           | some t => decide (t < peak' * (1 - 35 / 10000))) then
        some (peak' * (1 - 35 / 10000))
      else s.trailing_stop
    let take_profit_hit := decide ((14 : ℚ) / 1000 ≤ profit)
    let stop_loss_hit := decide (profit ≤ -(45 : ℚ) / 10000)
    let trailing_stop_hit :=
      match trailing' with
      | none => false
      | some t => decide (t ≠ 0) && decide (p ≤ t)
    let rsi_overbought := optGt (row.rsi_smooth sym) 82
    let rsi_oversold := optLt (row.rsi_smooth sym) 18
    let macd_reversal :=
      match row.macd_hist sym with
      | none => false
      | some h => decide (2 ≤ age) && decide (h < -(8 : ℚ) / 100000)
    let momentum_reversal :=
      match row.momentum_4h sym with
      | none => false
      | some m => decide (2 ≤ age) && decide (m < -(8 : ℚ) / 1000)
    let bb_extreme := optGt (row.bb_position sym) ((18 : ℚ) / 10)
    let max_hold_reached := decide (12 ≤ age)
    let quick_profit_exit := decide ((9 : ℚ) / 1000 ≤ profit) &&
      decide (2 ≤ age) && optGt (row.rsi_smooth sym) 78
    let exit_cond := take_profit_hit || stop_loss_hit || trailing_stop_hit ||
      rsi_overbought || rsi_oversold || macd_reversal || momentum_reversal ||
      bb_extreme || max_hold_reached || quick_profit_exit
    if exit_cond then
      { s with signals := s.signals ++ [⟨row.timestamp, sym, "SELL", 0⟩],
               in_position := false, held_symbol := none,
               trailing_stop := none, peak_price := 0,
               last_trade_index := i }
    else
      { s with peak_price := peak', trailing_stop := trailing' }

/-- The entry branch of the signal loop (src/strategy.py lines 196-275):
when the anchor gate holds, candidates are collected over the target
symbols, the best-scored one is bought with position_size 0.98 and the
state switches to in-position (the source reads `row[price_...]` for the
entry price; it is present and positive for any candidate, and `getD 0`
only names the same value). -/
def entryStep (s : GenState) (i : ℕ) (row : SRow) : GenState :=
  let candidates :=
    if decide ((2 : ℚ) ≤ row.anchor_score) && decide ((1 : ℚ) ≤ row.strong_trend) then
      target_symbols.filterMap (candidateFor row)
    else []
  match bestCandidate candidates with
  | none => s
  | some b =>
    { s with signals := s.signals ++ [⟨row.timestamp, b.1, "BUY", 98 / 100⟩],
             in_position := true, held_symbol := some b.1,
             entry_price := (row.price b.1).getD 0, entry_index := i,
             peak_price := (row.price b.1).getD 0, trailing_stop := none }

/-- One iteration of the signal loop (src/strategy.py lines 132-275): rows
with index below 50 are skipped; `if in_position and held_symbol:` selects
the exit branch, `elif not in_position and (i - last_trade_index) >=
cooldown_period:` the entry branch. -/
def genStep (s : GenState) (i : ℕ) (row : SRow) : GenState :=
  if i < 50 then s
  else
    match s.held_symbol, s.in_position with
    | some sym, true => exitStep s i row sym
    | _, _ =>
      if !s.in_position && decide (3 ≤ i - s.last_trade_index) then
        entryStep s i row
      else s

/-- Insertion into a timestamp-sorted record list. -/
def insertTs (r : SigRec) : List SigRec → List SigRec
  | [] => [r]
  | x :: xs => if r.timestamp ≤ x.timestamp then r :: x :: xs else x :: insertTs r xs

/-- `result_df.sort_values("timestamp")` (src/strategy.py line 283):
sorting the emitted records by timestamp. -/
def sortByTs : List SigRec → List SigRec
  | [] => []
  | x :: xs => insertTs x (sortByTs xs)

/-- `generate_signals` (src/strategy.py lines 86-285), restricted to the
signal-emission loop: the feature computation upstream (lines 86-106)
only populates the row fields consumed here, so the function is stated
over the prepared row list; `rows.enum` is `df.iterrows()` after
`reset_index`. On an empty `signals` list the source returns an empty
dataframe (line 278), which coincides with sorting the empty list. -/
def generate_signals (rows : List SRow) : List SigRec :=
  sortByTs (rows.enum.foldl (fun s p => genStep s p.1 p.2) initGenState).signals

/-- The shape of every record the signal loop can append: a BUY sized
exactly 0.98 or a SELL sized exactly 0.0. -/
def SigShape (r : SigRec) : Prop :=
  (r.signal = "BUY" ∧ r.position_size = 98 / 100) ∨
  (r.signal = "SELL" ∧ r.position_size = 0)

theorem mem_insertTs (r a : SigRec) (l : List SigRec) :
    a ∈ insertTs r l ↔ a = r ∨ a ∈ l := by
  induction l with
  | nil => simp [insertTs]
  | cons x xs ih =>
    unfold insertTs
    by_cases h : r.timestamp ≤ x.timestamp
    · simp [h]
    · simp [h, ih]
      tauto

theorem mem_sortByTs (a : SigRec) (l : List SigRec) :
    a ∈ sortByTs l ↔ a ∈ l := by
  induction l with
  | nil => simp [sortByTs]
  | cons x xs ih =>
    unfold sortByTs
    rw [mem_insertTs]
    simp [ih]

theorem sorted_insertTs (r : SigRec) (l : List SigRec)
    (h : List.Sorted (fun a b : SigRec => a.timestamp ≤ b.timestamp) l) :
    List.Sorted (fun a b : SigRec => a.timestamp ≤ b.timestamp) (insertTs r l) := by
  induction l with
  | nil => simp [insertTs]
  | cons x xs ih =>
    rcases List.sorted_cons.mp h with ⟨hx, hxs⟩
    unfold insertTs
    by_cases hle : r.timestamp ≤ x.timestamp
    · rw [if_pos hle, List.sorted_cons]
      refine ⟨?_, h⟩
      intro b hb
      rcases List.mem_cons.mp hb with rfl | hb
      · exact hle
      · exact le_trans hle (hx b hb)
    · rw [if_neg hle, List.sorted_cons]
      refine ⟨?_, ih hxs⟩
      intro b hb
      rcases (mem_insertTs r b xs).mp hb with rfl | hb
      · exact le_of_lt (not_le.mp hle)
      · exact hx b hb

theorem sorted_sortByTs (l : List SigRec) :
    List.Sorted (fun a b : SigRec => a.timestamp ≤ b.timestamp) (sortByTs l) := by
  induction l with
  | nil => simp [sortByTs]
  | cons x xs ih => exact sorted_insertTs x (sortByTs xs) ih

theorem shape_of_append (l : List SigRec) (x : SigRec) (hx : SigShape x)
    (r : SigRec) (hr : r ∈ l ++ [x]) : r ∈ l ∨ SigShape r := by
  rcases List.mem_append.mp hr with h | h
  · exact Or.inl h
  · rcases List.mem_singleton.mp h with rfl
    exact Or.inr hx

theorem exitStep_signals (s : GenState) (i : ℕ) (row : SRow) (sym : TSym)
    (r : SigRec) (hr : r ∈ (exitStep s i row sym).signals) :
    r ∈ s.signals ∨ SigShape r := by
  unfold exitStep at hr
  dsimp only at hr
  repeat' split at hr
  all_goals
    first
      | exact Or.inl hr
      | exact shape_of_append s.signals _ (Or.inr ⟨rfl, rfl⟩) r hr

theorem entryStep_signals (s : GenState) (i : ℕ) (row : SRow)
    (r : SigRec) (hr : r ∈ (entryStep s i row).signals) :
    r ∈ s.signals ∨ SigShape r := by
  unfold entryStep at hr
  dsimp only at hr
  repeat' split at hr
  all_goals
    first
      | exact Or.inl hr
      | exact shape_of_append s.signals _ (Or.inl ⟨rfl, rfl⟩) r hr

theorem genStep_signals (s : GenState) (i : ℕ) (row : SRow)
    (r : SigRec) (hr : r ∈ (genStep s i row).signals) :
    r ∈ s.signals ∨ SigShape r := by
  unfold genStep at hr
  split at hr
  · exact Or.inl hr
  · split at hr
    · exact exitStep_signals _ _ _ _ r hr
    · split at hr
      · exact entryStep_signals _ _ _ r hr
      · exact Or.inl hr

theorem foldl_genStep_shape (ps : List (ℕ × SRow)) :
    ∀ s : GenState, (∀ r ∈ s.signals, SigShape r) →
      ∀ r ∈ (ps.foldl (fun s p => genStep s p.1 p.2) s).signals, SigShape r := by
  induction ps with
  | nil => intro s hs; exact hs
  | cons p ps ih =>
    intro s hs
    refine ih (genStep s p.1 p.2) ?_
    intro r hr
    rcases genStep_signals s p.1 p.2 r hr with h | h
    · exact hs r h
    · exact h

/-- C10: every row returned by `generate_signals` carries signal "BUY"
with position_size exactly 0.98 or signal "SELL" with position_size
exactly 0.0 (never "HOLD"), hence position_size lies within [0, 1], and
the returned rows are sorted by timestamp. -/
theorem generate_signals_shape (rows : List SRow) :
    (∀ r ∈ generate_signals rows,
      ((r.signal = "BUY" ∧ r.position_size = 98 / 100) ∨
       (r.signal = "SELL" ∧ r.position_size = 0)) ∧
      0 ≤ r.position_size ∧ r.position_size ≤ 1) ∧
    List.Sorted (fun a b : SigRec => a.timestamp ≤ b.timestamp)
      (generate_signals rows) := by
  constructor
  · intro r hr
    have hr' := (mem_sortByTs r _).mp hr
    have hshape : SigShape r :=
      foldl_genStep_shape rows.enum initGenState
        (fun r h => absurd h (List.not_mem_nil r)) r hr'
    refine ⟨hshape, ?_⟩
    rcases hshape with ⟨_, h⟩ | ⟨_, h⟩ <;> rw [h] <;> norm_num
  · exact sorted_sortByTs _

/-- A feature row with every per-symbol feature absent; rows with index
below 50 are skipped by the loop regardless of content. -/
def blankRow : SRow :=
  ⟨0, 0, 0, fun _ => none, fun _ => none, fun _ => none, fun _ => none,
   fun _ => none, fun _ => none, fun _ => none, fun _ => none, fun _ => none,
   fun _ => none⟩

/-- A feature row that passes the anchor gate with a high-quality DOGE
setup. -/
def goodRow : SRow :=
  { timestamp := 7
    anchor_score := 2
    strong_trend := 1
    price := fun s => match s with | TSym.DOGE => some 100 | _ => none
    zscore := fun s => match s with | TSym.DOGE => some 1 | _ => none
    hr_vol := fun s => match s with | TSym.DOGE => some (1 / 100) | _ => none
    rsi_smooth := fun s => match s with | TSym.DOGE => some 50 | _ => none
    momentum_4h := fun s => match s with | TSym.DOGE => some (1 / 100) | _ => none
    momentum_8h := fun s => match s with | TSym.DOGE => some 0 | _ => none
    macd_hist := fun s => match s with | TSym.DOGE => some 0 | _ => none
    bb_position := fun s => match s with | TSym.DOGE => some 0 | _ => none
    price_vs_sma20 := fun s => match s with | TSym.DOGE => some (1 / 100) | _ => none
    price_vs_sma50 := fun s => match s with | TSym.DOGE => some (1 / 100) | _ => none }

/-- Fifty skipped rows followed by one row that triggers a BUY at
index 50. -/
def demoRows : List SRow := List.replicate 50 blankRow ++ [goodRow]

theorem demo_eval :
    generate_signals demoRows = [⟨7, TSym.DOGE, "BUY", 98 / 100⟩] := by
  simp [generate_signals, demoRows, blankRow, goodRow, genStep, entryStep,
    exitStep, candidateFor, bestCandidate, target_symbols, optGt, optLt,
    initGenState, sortByTs, insertTs, Optimizer.absQ, List.replicate,
    List.enum, List.enumFrom]
  norm_num [candidateFor, bestCandidate, optGt, optLt, Optimizer.absQ,
    List.filterMap_cons, sortByTs, insertTs]

/-- Witness for C10: the record emitted on the demo rows is a member of
the output and has the claimed BUY shape with position_size 0.98. -/
theorem generate_signals_shape_w :
    (⟨7, TSym.DOGE, "BUY", 98 / 100⟩ : SigRec) ∈ generate_signals demoRows ∧
    ((((⟨7, TSym.DOGE, "BUY", 98 / 100⟩ : SigRec).signal = "BUY" ∧
       (⟨7, TSym.DOGE, "BUY", 98 / 100⟩ : SigRec).position_size = 98 / 100) ∨
      ((⟨7, TSym.DOGE, "BUY", 98 / 100⟩ : SigRec).signal = "SELL" ∧
       (⟨7, TSym.DOGE, "BUY", 98 / 100⟩ : SigRec).position_size = 0)) ∧
     0 ≤ (⟨7, TSym.DOGE, "BUY", 98 / 100⟩ : SigRec).position_size ∧
     (⟨7, TSym.DOGE, "BUY", 98 / 100⟩ : SigRec).position_size ≤ 1) := by
  have hmem : (⟨7, TSym.DOGE, "BUY", 98 / 100⟩ : SigRec) ∈ generate_signals demoRows := by
    rw [demo_eval]
    exact List.mem_singleton.mpr rfl
  exact ⟨hmem, (generate_signals_shape demoRows).1 _ hmem⟩

end Strategy
